import Mathlib

/-
Verification of the view registry in backbone.plumber.js.

The registry (ViewController) keeps three JavaScript objects used as
dictionaries: _views (view cid to view), _indexByModel (model cid to
view cid) and _indexByCustom (custom string key to view cid), plus a
length attribute recomputed by _updateLength. We embed a JavaScript
object used as a dictionary as a list of key-value pairs kept in
insertion order with pairwise-distinct keys: assignment overwrites in
place or appends, delete removes the entry, and underscore iteration
(_.any, _.each) walks the list in order.
-/

set_option autoImplicit false

namespace Plumber

universe u v

/-- Property read obj[k] on a JavaScript object: the value stored under
the key, absent (undefined) when the key is not present. -/
def jsGet {α : Type u} {β : Type v} [DecidableEq α] : List (α × β) → α → Option β
  | [], _ => none
  | p :: rest, k => if p.1 = k then some p.2 else jsGet rest k

/-- Property write obj[k] = v: overwrite in place when the key exists,
append otherwise (JavaScript objects keep string keys in insertion order). -/
def jsSet {α : Type u} {β : Type v} [DecidableEq α] : List (α × β) → α → β → List (α × β)
  | [], k, v => [(k, v)]
  | p :: rest, k, v => if p.1 = k then (k, v) :: rest else p :: jsSet rest k v

/-- The delete operator: removes the entry under the key; deleting an
absent key is a no-op. -/
def jsDel {α : Type u} {β : Type v} [DecidableEq α] : List (α × β) → α → List (α × β)
  | [], _ => []
  | p :: rest, k => if p.1 = k then jsDel rest k else p :: jsDel rest k

/-- The _.any scan in removeFromContainer: walk the entries in order and
delete the first one whose value equals the target, then stop. -/
def eraseFirstVal {α : Type u} {β : Type v} [DecidableEq β] :
    List (α × β) → β → List (α × β)
  | [], _ => []
  | p :: rest, t => if p.2 = t then rest else p :: eraseFirstVal rest t

/-- The keys of the entry list are pairwise distinct (true of every
JavaScript object). -/
def noDupKeys {α : Type u} {β : Type v} [DecidableEq α] : List (α × β) → Bool
  | [] => true
  | p :: rest => decide (∀ q ∈ rest, q.1 ≠ p.1) && noDupKeys rest

/-- The values of the entry list are pairwise distinct (no two keys of
the index target the same view cid). -/
def noDupVals {α : Type u} {β : Type v} [DecidableEq β] : List (α × β) → Bool
  | [] => true
  | p :: rest => decide (∀ q ∈ rest, q.2 ≠ p.2) && noDupVals rest

/-- A Backbone model as the registry sees it: a client id, whether the
attributes member is defined (a real Backbone model has it, a plain
object does not), and the attribute data that toJSON would return. -/
structure Model where
  cid : Nat
  hasAttributes : Bool
  data : Nat
  deriving DecidableEq

/-- The value handed to the template in attach: either the plain data
snapshot from toJSON, or the model object itself when it has no
attributes member. -/
inductive Snapshot where
  | json (data : Nat)
  | raw (m : Model)
  deriving DecidableEq

/-- model.toJSON(): the plain attribute data of the model. -/
def Model.toJSON (m : Model) : Snapshot := Snapshot.json m.data

/-- Observable DOM-side events of one attach call, in order: the
$el.html(content) replacement and the view.render() invocation. -/
inductive AttachEvent where
  | setHtml (content : String)
  | renderCall
  deriving DecidableEq

/-- A Backbone view as the registry sees it: client id, optional bound
model, whether a collection is bound, the optional template function,
the contents of the root element $el, how many times the render hook has
run, whether delegated events are still bound, and - for the apply
operation - the names of the extra callable members the view exposes
together with a log of the invocations they received. -/
structure View where
  cid : Nat
  model : Option Model
  hasCollection : Bool
  template : Option (Snapshot → String)
  elContents : String
  renderCount : Nat
  eventsDelegated : Bool
  methods : List String
  calls : List (String × List Nat)

/-- A JavaScript argument slot that may hold null or undefined instead
of a view (removeView checks view !== null only). -/
inductive JsArg where
  | null
  | undefined
  | val (v : View)

/-- The overridden Backbone.View.prototype.remove from the top of the
source: with an element argument it removes that external DOM node and
leaves the view root alone, otherwise it empties the view root element;
in both cases it then undelegates the view events. -/
def View.remove (v : View) (element : Option Nat) : View :=
  let v1 := match element with
    | some _ => v
    | none => { v with elContents := "" }
  { v1 with eventsDelegated := false }

/-- The view render hook invoked by attach; its body is the view's own
business, observed here as an invocation count. -/
def render (v : View) : View := { v with renderCount := v.renderCount + 1 }

/-- The ViewController state: the three index objects plus the length
attribute, which is absent until _updateLength first runs. The option
bag handled by _configure carries no registry state and is omitted. -/
structure ViewController where
  _views : List (Nat × View)
  _indexByModel : List (Nat × Nat)
  _indexByCustom : List (String × Nat)
  length : Option Nat

/-- The state set up by the ViewController constructor: all three
indexes start as empty objects and length is not yet set. -/
def emptyController : ViewController :=
  { _views := [], _indexByModel := [], _indexByCustom := [], length := none }

/-- _updateLength: this.length = _.size(this._views). -/
def _updateLength (c : ViewController) : ViewController :=
  { c with length := some c._views.length }

/-- storeView(view, customIndex): store the view under its cid, index it
by the model cid when a model is bound, and - when customIndex is truthy,
which for a string argument means present and nonempty - index it under
the custom key. Ends by recomputing the length. -/
def storeView (c : ViewController) (view : View) (customIndex : Option String) :
    ViewController :=
  let viewCid := view.cid
  let views := jsSet c._views viewCid view
  let byModel := match view.model with
    | some m => jsSet c._indexByModel m.cid viewCid
    | none => c._indexByModel
  let byCustom := match customIndex with
    | some s => if s.isEmpty then c._indexByCustom else jsSet c._indexByCustom s viewCid
    | none => c._indexByCustom
  _updateLength { c with _views := views, _indexByModel := byModel, _indexByCustom := byCustom }

/-- removeFromContainer(view): delete the model index entry under the
bound model cid (unconditionally, whatever view cid it targets), delete
the first custom index entry targeting the view cid (_.any stops at the
first hit), delete the view itself, and recompute the length. -/
def removeFromContainer (c : ViewController) (view : View) : ViewController :=
  let viewCid := view.cid
  let byModel := match view.model with
    | some m => jsDel c._indexByModel m.cid
    | none => c._indexByModel
  let byCustom := eraseFirstVal c._indexByCustom viewCid
  let views := jsDel c._views viewCid
  _updateLength { c with _views := views, _indexByModel := byModel, _indexByCustom := byCustom }

/-- removeView(view): the guard is view !== null, so null is a no-op but
undefined passes the guard and removeFromContainer then reads view.cid
of undefined and throws. For a real view it removes it from the
container and then calls the overridden remove with no argument. The
returned view is the argument object after that mutation. -/
def removeView (c : ViewController) (view : JsArg) :
    Except String (ViewController × Option View) :=
  match view with
  | JsArg.null => Except.ok (c, none)
  | JsArg.undefined => Except.error "TypeError: cannot read cid of undefined"
  | JsArg.val v => Except.ok (removeFromContainer c v, some (View.remove v none))

/-- The snapshot computed at the top of the non-collection branch of
attach: view.model.toJSON() when the attributes member is defined, the
model object itself otherwise. -/
def snapshotOf (m : Model) : Snapshot :=
  if m.hasAttributes then Model.toJSON m else Snapshot.raw m

/-- attach(view): the whole body sits inside if (!view.collection), so a
collection-backed view is left completely untouched - in particular its
render hook is not invoked. Otherwise the code reads
view.model.attributes, which throws when no model is bound; with a model
it renders the template (when one is declared) against the snapshot,
replaces the root element contents, and then invokes the render hook.
The event list records the DOM-side effects in order. -/
def attach (view : View) : Except String (View × List AttachEvent) :=
  if view.hasCollection then
    Except.ok (view, [])
  else
    match view.model with
    | none => Except.error "TypeError: cannot read attributes of undefined"
    | some m =>
      let snap := snapshotOf m
      match view.template with
      | some tmpl =>
        let content := tmpl snap
        Except.ok (render { view with elContents := content },
          [AttachEvent.setHtml content, AttachEvent.renderCall])
      | none => Except.ok (render view, [AttachEvent.renderCall])

/-- attach applied to a possibly-absent view: this.attach(view) where
the lookup may have yielded undefined, in which case reading
view.collection throws. -/
def attachArg (view : Option View) : Except String (View × List AttachEvent) :=
  match view with
  | some v => attach v
  | none => Except.error "TypeError: view is undefined"

/-- attachSingleView(index): var view = this._views[index]; this.attach(view).
There is no guard between the lookup and the attach call. -/
def attachSingleView (c : ViewController) (index : Nat) :
    Except String (View × List AttachEvent) :=
  attachArg (jsGet c._views index)

/-- createView(ViewType, options, customIndex): new ViewType(options) is
the host framework's construction and is taken here as the already
constructed view; the branch on the truthiness of customIndex then calls
storeView with or without the key, and the view is returned. -/
def createView (c : ViewController) (view : View) (customIndex : Option String) :
    ViewController × View :=
  match customIndex with
  | some s =>
      if s.isEmpty then (storeView c view none, view)
      else (storeView c view (some s), view)
  | none => (storeView c view none, view)

/-- One step of the apply iteration: if the view exposes a callable
member under the name, invoke it with the argument list (spread by
Function.prototype.apply), otherwise leave the view untouched. -/
def applyOne (method : String) (args : List Nat) (v : View) : View :=
  if v.methods.contains method then
    { v with calls := v.calls ++ [(method, args)] }
  else v

/-- apply(method, args): _.each over the stored views, invoking the
named member where it exists; args || [] supplies the empty list when
the argument is missing. The indexes and length are untouched. -/
def ViewController.apply (c : ViewController) (method : String)
    (args : Option (List Nat)) : ViewController :=
  { c with _views := c._views.map (fun p => (p.1, applyOne method (args.getD []) p.2)) }

/-- The member names defined on ViewController.prototype, including the
Backbone.Events mixin. The by-cid helper is spelled _getByCid, while the
call sites inside _getByModel, _getByModelCid and _getByCustom say
this.getByCid and this.getByModelCid without the underscore. -/
def methodNames : List String :=
  ["initialize", "storeView", "removeFromContainer", "removeView", "attach",
   "createView", "apply", "attachSingleView", "attachViews",
   "_getByModel", "_getByModelCid", "_getByCustom", "_getByIndex", "_getByCid",
   "_updateLength", "_configure",
   "on", "off", "trigger", "once", "listenTo", "listenToOnce", "stopListening",
   "bind", "unbind"]

/-- _getByCid(cid): return this._views[cid]; the argument can be the
undefined result of an index miss, and this._views[undefined] is absent. -/
def _getByCid (c : ViewController) (cid : Option Nat) : Option View :=
  match cid with
  | some x => jsGet c._views x
  | none => none

/-- _getByCustom(index): reads the view cid from the custom index and
then evaluates this.getByCid(viewCid). Property resolution on this
searches the prototype method names; getByCid is not among them (the
helper is _getByCid), so the call throws. -/
def _getByCustom (c : ViewController) (index : String) :
    Except String (Option View) :=
  let viewCid := jsGet c._indexByCustom index
  if methodNames.contains "getByCid" then Except.ok (_getByCid c viewCid)
  else Except.error "TypeError: this.getByCid is not a function"

/-- _getByModelCid(modelCid): reads the view cid from the model index
and then evaluates this.getByCid(viewCid), which is likewise not a
defined member. -/
def _getByModelCid (c : ViewController) (modelCid : Nat) :
    Except String (Option View) :=
  let viewCid := jsGet c._indexByModel modelCid
  if methodNames.contains "getByCid" then Except.ok (_getByCid c viewCid)
  else Except.error "TypeError: this.getByCid is not a function"

/-- _getByModel(model): evaluates this.getByModelCid(model.cid); the
defined member is _getByModelCid, so the call throws. -/
def _getByModel (c : ViewController) (model : Model) :
    Except String (Option View) :=
  if methodNames.contains "getByModelCid" then _getByModelCid c model.cid
  else Except.error "TypeError: this.getByModelCid is not a function"

/-- _getByIndex(index): the positional accessor over the unstable value
enumeration of _views. -/
def _getByIndex (c : ViewController) (index : Nat) : Option View :=
  (c._views.map (fun p => p.2)).get? index

/-- One mutating call on the registry, for reasoning about reachable
states: storeView, createView, removeFromContainer or removeView. -/
inductive Op where
  | store (view : View) (customIndex : Option String)
  | create (view : View) (customIndex : Option String)
  | removeC (view : View)
  | removeV (arg : JsArg)

/-- The state transition of one call. A removeView that throws (an
undefined argument) aborts before any mutation, so the state is kept. -/
def runOp (c : ViewController) : Op → ViewController
  | Op.store v k => storeView c v k
  | Op.create v k => (createView c v k).1
  | Op.removeC v => removeFromContainer c v
  | Op.removeV a =>
      match removeView c a with
      | Except.ok (cNew, _) => cNew
      | Except.error _ => c

/-- Run a sequence of calls. -/
def run (c : ViewController) : List Op → ViewController
  | [] => c
  | op :: rest => run (runOp c op) rest

/-- Side condition on one store: when a nonempty custom key is supplied,
no other custom key currently targets the stored view cid (in the host
framework this holds because a view is stored under at most one key). -/
def storeValid (c : ViewController) (v : View) (k : Option String) : Bool :=
  match k with
  | some s => s.isEmpty || decide (∀ p ∈ c._indexByCustom, p.2 = v.cid → p.1 = s)
  | none => true

/-- Side condition on one removal: every model index entry targeting the
view cid sits under the cid of the model bound to that view (in the host
framework this holds because cids are unique per view instance and the
model binding is not mutated between store and removal). -/
def removeValid (c : ViewController) (v : View) : Bool :=
  match v.model with
  | some m => decide (∀ p ∈ c._indexByModel, p.2 = v.cid → p.1 = m.cid)
  | none => decide (∀ p ∈ c._indexByModel, p.2 ≠ v.cid)

/-- Side condition of one call in a run. -/
def validOp (c : ViewController) : Op → Bool
  | Op.store v k => storeValid c v k
  | Op.create v k => storeValid c v k
  | Op.removeC v => removeValid c v
  | Op.removeV (JsArg.val v) => removeValid c v
  | Op.removeV _ => true

/-- A run whose every call satisfies its side condition in the state it
executes in. -/
def validRun (c : ViewController) : List Op → Bool
  | [] => true
  | op :: rest => validOp c op && validRun (runOp c op) rest

/-- Every view cid targeted by the model index is registered in _views. -/
def modelIdxRegistered (c : ViewController) : Bool :=
  decide (∀ p ∈ c._indexByModel, (jsGet c._views p.2).isSome = true)

/-- Every view cid targeted by the custom index is registered in _views. -/
def customIdxRegistered (c : ViewController) : Bool :=
  decide (∀ p ∈ c._indexByCustom, (jsGet c._views p.2).isSome = true)

/-- The invariant of the claim: every view handle present in the model
index or the custom index is also present in _views. -/
def claim5Inv (c : ViewController) : Bool :=
  modelIdxRegistered c && customIdxRegistered c

/-- The inductive strengthening: the claim invariant plus distinct
custom keys (a JavaScript object property) and at most one custom key
per view cid. -/
def regInv (c : ViewController) : Bool :=
  claim5Inv c && noDupKeys c._indexByCustom && noDupVals c._indexByCustom

/-- A sequence of storeView calls, as in the count property. -/
def storeAll (c : ViewController) : List (View × Option String) → ViewController
  | [] => c
  | p :: rest => storeAll (storeView c p.1 p.2) rest

/-- The stored views carry pairwise distinct handles. -/
def distinctCids : List (View × Option String) → Bool
  | [] => true
  | p :: rest => decide (∀ q ∈ rest, q.1.cid ≠ p.1.cid) && distinctCids rest

/-- A view fixture: fresh root element, render not yet run, events
delegated, no extra members. -/
def mkView (cid : Nat) (model : Option Model) (coll : Bool)
    (tmpl : Option (Snapshot → String)) : View :=
  { cid := cid, model := model, hasCollection := coll, template := tmpl,
    elContents := "", renderCount := 0, eventsDelegated := true,
    methods := [], calls := [] }

/-- A model fixture with attributes defined. -/
def mAlpha : Model := { cid := 7, hasAttributes := true, data := 40 }

/-- A second model fixture, under a different identity. -/
def mGamma : Model := { cid := 8, hasAttributes := true, data := 41 }

/-- A template fixture. -/
def tFn : Snapshot → String := fun _ => "TPL"

/-- A plain model-less, collection-less view. -/
def vPlain : View := mkView 1 none false none

/-- A collection-backed view. -/
def collView : View := mkView 3 none true none

/-- A model-backed view with a template. -/
def vTpl : View := mkView 4 (some mAlpha) false (some tFn)

/-- Two views bound to the same model identity. -/
def v1M : View := mkView 1 (some mAlpha) false none

/-- The second view bound to the same model identity. -/
def v2M : View := mkView 2 (some mAlpha) false none

/-- The registry after storing v1M and then v2M (same model identity). -/
def c6state : ViewController :=
  storeView (storeView emptyController v1M none) v2M none

/-- A view exposing a customMethod member. -/
def vCap : View :=
  { mkView 1 none false none with methods := ["customMethod"] }

/-- A view without that member. -/
def vNoCap : View := mkView 2 none false none

/-- A registry holding one view with the member and one without. -/
def cApply : ViewController :=
  storeView (storeView emptyController vCap none) vNoCap none

/-- A registry holding only v2M, bound to the mAlpha identity. -/
def cColl : ViewController := storeView emptyController v2M none

/-- A view never registered in cColl but bound to the same model
identity as the registered v2M. -/
def vIntrude : View := mkView 9 (some mAlpha) false none

/-- A view never registered in cColl, with a model identity absent from
the indexes. -/
def vStray : View := mkView 9 (some mGamma) false none

/-- The render hook ran during the attach call: the event trace holds a
renderCall entry. -/
def renderInvoked (r : Except String (View × List AttachEvent)) : Prop :=
  match r with
  | Except.ok p => AttachEvent.renderCall ∈ p.2
  | Except.error _ => False

/-- A valid demonstration run: two stores under distinct keys, then a
removal. -/
def demoOps : List Op :=
  [Op.store v1M (some "a"), Op.store v2M (some "b"), Op.removeC v1M]

/-- The run that breaks the claim invariant: the same view stored under
two custom keys and then removed; the _.any scan deletes only the first
key, leaving the second one targeting an unregistered cid. -/
def badOps : List Op :=
  [Op.store vPlain (some "a"), Op.store vPlain (some "b"), Op.removeC vPlain]

section MapLemmas

variable {α : Type u} {β : Type v}

theorem jsGet_set [DecidableEq α] (m : List (α × β)) (k k' : α) (v : β) :
    jsGet (jsSet m k v) k' = if k' = k then some v else jsGet m k' := by
  induction m with
  | nil =>
      by_cases h : k = k'
      · subst h; simp [jsSet, jsGet]
      · simp [jsSet, jsGet, h, Ne.symm h]
  | cons p rest ih =>
      by_cases hp : p.1 = k
      · by_cases h : k = k'
        · subst h; simp [jsSet, jsGet, hp]
        · have hpk' : ¬ p.1 = k' := by rw [hp]; exact h
          simp [jsSet, jsGet, hp, hpk', h, Ne.symm h]
      · by_cases h : k = k'
        · subst h
          simp [jsSet, jsGet, hp, ih]
        · by_cases hp' : p.1 = k'
          · simp [jsSet, jsGet, hp, hp', Ne.symm h]
          · simp [jsSet, jsGet, hp, hp', Ne.symm h, ih]

theorem mem_jsSet [DecidableEq α] (m : List (α × β)) (k : α) (v : β) (q : α × β)
    (h : q ∈ jsSet m k v) : q = (k, v) ∨ q ∈ m := by
  induction m with
  | nil => simpa [jsSet] using h
  | cons p rest ih =>
      by_cases hp : p.1 = k
      · simp only [jsSet, if_pos hp, List.mem_cons] at h
        rcases h with h | h
        · exact Or.inl h
        · exact Or.inr (List.mem_cons_of_mem _ h)
      · simp only [jsSet, if_neg hp, List.mem_cons] at h
        rcases h with h | h
        · exact Or.inr (by simp [h])
        · rcases ih h with h1 | h1
          · exact Or.inl h1
          · exact Or.inr (List.mem_cons_of_mem _ h1)

theorem jsGet_del [DecidableEq α] (m : List (α × β)) (k k' : α) :
    jsGet (jsDel m k) k' = if k' = k then none else jsGet m k' := by
  induction m with
  | nil => simp [jsDel, jsGet]
  | cons p rest ih =>
      by_cases hp : p.1 = k
      · by_cases h : k' = k
        · subst h; simp [jsDel, hp, ih]
        · have hpk' : ¬ p.1 = k' := by rw [hp]; exact fun hh => h hh.symm
          have h' : ¬ k = k' := fun hh => h hh.symm
          simp [jsDel, hp, ih, h, h', jsGet, hpk']
      · by_cases hp' : p.1 = k'
        · have h : ¬ k' = k := fun hh => hp (hp'.trans hh)
          simp [jsDel, hp, jsGet, hp', h]
        · simp [jsDel, hp, jsGet, hp', ih]

theorem mem_jsDel [DecidableEq α] (m : List (α × β)) (k : α) (q : α × β)
    (h : q ∈ jsDel m k) : q ∈ m ∧ q.1 ≠ k := by
  induction m with
  | nil => simp [jsDel] at h
  | cons p rest ih =>
      by_cases hp : p.1 = k
      · rw [jsDel, if_pos hp] at h
        rcases ih h with ⟨h1, h2⟩
        exact ⟨List.mem_cons_of_mem _ h1, h2⟩
      · rw [jsDel, if_neg hp] at h
        rcases List.mem_cons.mp h with h | h
        · exact ⟨by simp [h], by rw [h]; exact hp⟩
        · rcases ih h with ⟨h1, h2⟩
          exact ⟨List.mem_cons_of_mem _ h1, h2⟩

theorem jsDel_of_get_none [DecidableEq α] (m : List (α × β)) (k : α)
    (h : jsGet m k = none) : jsDel m k = m := by
  induction m with
  | nil => simp [jsDel]
  | cons p rest ih =>
      by_cases hp : p.1 = k
      · simp [jsGet, hp] at h
      · rw [jsGet, if_neg hp] at h
        simp [jsDel, hp, ih h]

theorem length_jsSet_of_get_none [DecidableEq α] (m : List (α × β)) (k : α) (v : β)
    (h : jsGet m k = none) : (jsSet m k v).length = m.length + 1 := by
  induction m with
  | nil => simp [jsSet]
  | cons p rest ih =>
      by_cases hp : p.1 = k
      · simp [jsGet, hp] at h
      · rw [jsGet, if_neg hp] at h
        simp [jsSet, hp, ih h]

theorem mem_eraseFirstVal [DecidableEq β] (m : List (α × β)) (t : β) (q : α × β)
    (h : q ∈ eraseFirstVal m t) : q ∈ m := by
  induction m with
  | nil => simp [eraseFirstVal] at h
  | cons p rest ih =>
      by_cases hp : p.2 = t
      · rw [eraseFirstVal, if_pos hp] at h
        exact List.mem_cons_of_mem _ h
      · rw [eraseFirstVal, if_neg hp] at h
        rcases List.mem_cons.mp h with h | h
        · simp [h]
        · exact List.mem_cons_of_mem _ (ih h)

theorem eraseFirstVal_of_forall_ne [DecidableEq β] (m : List (α × β)) (t : β)
    (h : ∀ q ∈ m, q.2 ≠ t) : eraseFirstVal m t = m := by
  induction m with
  | nil => simp [eraseFirstVal]
  | cons p rest ih =>
      have hp : p.2 ≠ t := h p (List.mem_cons_self _ _)
      simp [eraseFirstVal, hp, ih (fun q hq => h q (List.mem_cons_of_mem _ hq))]

theorem val_ne_of_mem_eraseFirstVal [DecidableEq β] (t : β) :
    ∀ m : List (α × β), noDupVals m = true →
      ∀ q ∈ eraseFirstVal m t, q.2 ≠ t := by
  intro m
  induction m with
  | nil => intro _ q hq; simp [eraseFirstVal] at hq
  | cons p rest ih =>
      intro hnd q hq
      simp only [noDupVals, Bool.and_eq_true, decide_eq_true_eq] at hnd
      obtain ⟨h1, h2⟩ := hnd
      by_cases hp : p.2 = t
      · rw [eraseFirstVal, if_pos hp] at hq
        exact fun hqt => (h1 q hq) (hqt.trans hp.symm)
      · rw [eraseFirstVal, if_neg hp] at hq
        rcases List.mem_cons.mp hq with h | h
        · rw [h]; exact hp
        · exact ih h2 q h

theorem noDupKeys_eraseFirstVal [DecidableEq α] [DecidableEq β] (t : β) :
    ∀ m : List (α × β), noDupKeys m = true →
      noDupKeys (eraseFirstVal m t) = true := by
  intro m
  induction m with
  | nil => intro h; simpa [eraseFirstVal] using h
  | cons p rest ih =>
      intro h
      simp only [noDupKeys, Bool.and_eq_true, decide_eq_true_eq] at h
      obtain ⟨h1, h2⟩ := h
      by_cases hp : p.2 = t
      · rw [eraseFirstVal, if_pos hp]; exact h2
      · rw [eraseFirstVal, if_neg hp]
        simp only [noDupKeys, Bool.and_eq_true, decide_eq_true_eq]
        exact ⟨fun q hq => h1 q (mem_eraseFirstVal rest t q hq), ih h2⟩

theorem noDupVals_eraseFirstVal [DecidableEq β] (t : β) :
    ∀ m : List (α × β), noDupVals m = true →
      noDupVals (eraseFirstVal m t) = true := by
  intro m
  induction m with
  | nil => intro h; simpa [eraseFirstVal] using h
  | cons p rest ih =>
      intro h
      simp only [noDupVals, Bool.and_eq_true, decide_eq_true_eq] at h
      obtain ⟨h1, h2⟩ := h
      by_cases hp : p.2 = t
      · rw [eraseFirstVal, if_pos hp]; exact h2
      · rw [eraseFirstVal, if_neg hp]
        simp only [noDupVals, Bool.and_eq_true, decide_eq_true_eq]
        exact ⟨fun q hq => h1 q (mem_eraseFirstVal rest t q hq), ih h2⟩

theorem noDupKeys_jsSet [DecidableEq α] (k : α) (v : β) :
    ∀ m : List (α × β), noDupKeys m = true → noDupKeys (jsSet m k v) = true := by
  intro m
  induction m with
  | nil => intro _; simp [jsSet, noDupKeys]
  | cons p rest ih =>
      intro h
      simp only [noDupKeys, Bool.and_eq_true, decide_eq_true_eq] at h
      obtain ⟨h1, h2⟩ := h
      by_cases hp : p.1 = k
      · rw [jsSet, if_pos hp]
        simp only [noDupKeys, Bool.and_eq_true, decide_eq_true_eq]
        exact ⟨fun q hq => by rw [← hp]; exact h1 q hq, h2⟩
      · rw [jsSet, if_neg hp]
        simp only [noDupKeys, Bool.and_eq_true, decide_eq_true_eq]
        refine ⟨?_, ih h2⟩
        intro q hq
        rcases mem_jsSet rest k v q hq with h3 | h3
        · rw [h3]; exact fun hh => hp hh.symm
        · exact h1 q h3

theorem noDupVals_jsSet [DecidableEq α] [DecidableEq β] (k : α) (t : β) :
    ∀ m : List (α × β), noDupKeys m = true → noDupVals m = true →
      (∀ q ∈ m, q.2 = t → q.1 = k) → noDupVals (jsSet m k t) = true := by
  intro m
  induction m with
  | nil => intro _ _ _; simp [jsSet, noDupVals]
  | cons p rest ih =>
      intro hk hv hcond
      simp only [noDupKeys, Bool.and_eq_true, decide_eq_true_eq] at hk
      simp only [noDupVals, Bool.and_eq_true, decide_eq_true_eq] at hv
      obtain ⟨hk1, hk2⟩ := hk
      obtain ⟨hv1, hv2⟩ := hv
      by_cases hp : p.1 = k
      · rw [jsSet, if_pos hp]
        simp only [noDupVals, Bool.and_eq_true, decide_eq_true_eq]
        refine ⟨?_, hv2⟩
        intro q hq hqt
        exact (hk1 q hq)
          ((hcond q (List.mem_cons_of_mem _ hq) hqt).trans hp.symm)
      · have hpt : p.2 ≠ t := fun hh => hp (hcond p (List.mem_cons_self _ _) hh)
        rw [jsSet, if_neg hp]
        simp only [noDupVals, Bool.and_eq_true, decide_eq_true_eq]
        refine ⟨?_, ih hk2 hv2 (fun q hq => hcond q (List.mem_cons_of_mem _ hq))⟩
        intro q hq
        rcases mem_jsSet rest k t q hq with h3 | h3
        · rw [h3]; exact fun hh => hpt hh.symm
        · exact hv1 q h3

theorem jsGet_map_snd {γ : Type v} [DecidableEq α] (m : List (α × β)) (g : β → γ)
    (k : α) :
    jsGet (m.map (fun p => (p.1, g p.2))) k = (jsGet m k).map g := by
  induction m with
  | nil => simp [jsGet]
  | cons p rest ih =>
      by_cases hp : p.1 = k
      · simp [jsGet, hp]
      · simp [jsGet, hp, ih]

end MapLemmas

section RegistryLemmas

theorem storeView_views (c : ViewController) (v : View) (k : Option String) :
    (storeView c v k)._views = jsSet c._views v.cid v := rfl

theorem storeView_byModel (c : ViewController) (v : View) (k : Option String) :
    (storeView c v k)._indexByModel =
      match v.model with
      | some m => jsSet c._indexByModel m.cid v.cid
      | none => c._indexByModel := rfl

theorem storeView_byCustom (c : ViewController) (v : View) (k : Option String) :
    (storeView c v k)._indexByCustom =
      match k with
      | some s => if s.isEmpty then c._indexByCustom
                  else jsSet c._indexByCustom s v.cid
      | none => c._indexByCustom := rfl

theorem removeFromContainer_views (c : ViewController) (v : View) :
    (removeFromContainer c v)._views = jsDel c._views v.cid := rfl

theorem removeFromContainer_byModel (c : ViewController) (v : View) :
    (removeFromContainer c v)._indexByModel =
      match v.model with
      | some m => jsDel c._indexByModel m.cid
      | none => c._indexByModel := rfl

theorem removeFromContainer_byCustom (c : ViewController) (v : View) :
    (removeFromContainer c v)._indexByCustom =
      eraseFirstVal c._indexByCustom v.cid := rfl

theorem storeView_byModel_some (c : ViewController) (v : View) (k : Option String)
    (m : Model) (h : v.model = some m) :
    (storeView c v k)._indexByModel = jsSet c._indexByModel m.cid v.cid := by
  rw [storeView_byModel, h]

theorem storeView_byModel_none (c : ViewController) (v : View) (k : Option String)
    (h : v.model = none) :
    (storeView c v k)._indexByModel = c._indexByModel := by
  rw [storeView_byModel, h]

theorem storeView_byCustom_none (c : ViewController) (v : View) :
    (storeView c v none)._indexByCustom = c._indexByCustom := rfl

theorem storeView_byCustom_some (c : ViewController) (v : View) (s : String) :
    (storeView c v (some s))._indexByCustom =
      if s.isEmpty then c._indexByCustom else jsSet c._indexByCustom s v.cid := rfl

theorem removeFromContainer_byModel_some (c : ViewController) (v : View)
    (m : Model) (h : v.model = some m) :
    (removeFromContainer c v)._indexByModel = jsDel c._indexByModel m.cid := by
  rw [removeFromContainer_byModel, h]

theorem removeFromContainer_byModel_none (c : ViewController) (v : View)
    (h : v.model = none) :
    (removeFromContainer c v)._indexByModel = c._indexByModel := by
  rw [removeFromContainer_byModel, h]

theorem apply_views (c : ViewController) (method : String)
    (args : Option (List Nat)) :
    (ViewController.apply c method args)._views =
      c._views.map (fun p => (p.1, applyOne method (args.getD []) p.2)) := rfl

theorem viewControllerExt (a b : ViewController)
    (h1 : a._views = b._views) (h2 : a._indexByModel = b._indexByModel)
    (h3 : a._indexByCustom = b._indexByCustom) (h4 : a.length = b.length) :
    a = b := by
  cases a
  cases b
  simp_all

theorem regInv_storeView (c : ViewController) (v : View) (k : Option String)
    (hInv : regInv c = true) (hVal : storeValid c v k = true) :
    regInv (storeView c v k) = true := by
  simp only [regInv, claim5Inv, modelIdxRegistered, customIdxRegistered,
    Bool.and_eq_true, decide_eq_true_eq] at hInv
  obtain ⟨⟨⟨hM, hC⟩, hK⟩, hV⟩ := hInv
  simp only [regInv, claim5Inv, modelIdxRegistered, customIdxRegistered,
    Bool.and_eq_true, decide_eq_true_eq]
  refine ⟨⟨⟨?_, ?_⟩, ?_⟩, ?_⟩
  · intro p hp
    rw [storeView_views, jsGet_set]
    cases hvm : v.model with
    | none =>
        rw [storeView_byModel_none c v k hvm] at hp
        by_cases h : p.2 = v.cid
        · simp [h]
        · rw [if_neg h]; exact hM p hp
    | some m =>
        rw [storeView_byModel_some c v k m hvm] at hp
        rcases mem_jsSet _ _ _ p hp with h | h
        · rw [h]; simp
        · by_cases h2 : p.2 = v.cid
          · simp [h2]
          · rw [if_neg h2]; exact hM p h
  · intro p hp
    rw [storeView_views, jsGet_set]
    have fromOld : p ∈ c._indexByCustom →
        (if p.2 = v.cid then some v else jsGet c._views p.2).isSome = true := by
      intro hmem
      by_cases h : p.2 = v.cid
      · simp [h]
      · rw [if_neg h]; exact hC p hmem
    cases k with
    | none =>
        rw [storeView_byCustom_none] at hp
        exact fromOld hp
    | some s =>
        by_cases hs : s.isEmpty
        · rw [storeView_byCustom_some, if_pos hs] at hp
          exact fromOld hp
        · rw [storeView_byCustom_some, if_neg hs] at hp
          rcases mem_jsSet _ _ _ p hp with h | h
          · rw [h]; simp
          · exact fromOld h
  · cases k with
    | none => rw [storeView_byCustom_none]; exact hK
    | some s =>
        by_cases hs : s.isEmpty
        · rw [storeView_byCustom_some, if_pos hs]; exact hK
        · rw [storeView_byCustom_some, if_neg hs]
          exact noDupKeys_jsSet s v.cid c._indexByCustom hK
  · cases k with
    | none => rw [storeView_byCustom_none]; exact hV
    | some s =>
        by_cases hs : s.isEmpty
        · rw [storeView_byCustom_some, if_pos hs]; exact hV
        · rw [storeView_byCustom_some, if_neg hs]
          simp only [storeValid, hs, Bool.false_or, decide_eq_true_eq] at hVal
          exact noDupVals_jsSet s v.cid c._indexByCustom hK hV hVal

theorem regInv_removeFromContainer (c : ViewController) (v : View)
    (hInv : regInv c = true) (hVal : removeValid c v = true) :
    regInv (removeFromContainer c v) = true := by
  simp only [regInv, claim5Inv, modelIdxRegistered, customIdxRegistered,
    Bool.and_eq_true, decide_eq_true_eq] at hInv
  obtain ⟨⟨⟨hM, hC⟩, hK⟩, hV⟩ := hInv
  simp only [regInv, claim5Inv, modelIdxRegistered, customIdxRegistered,
    Bool.and_eq_true, decide_eq_true_eq]
  refine ⟨⟨⟨?_, ?_⟩, ?_⟩, ?_⟩
  · intro p hp
    rw [removeFromContainer_views, jsGet_del]
    cases hvm : v.model with
    | none =>
        rw [removeFromContainer_byModel_none c v hvm] at hp
        simp only [removeValid, hvm, decide_eq_true_eq] at hVal
        rw [if_neg (hVal p hp)]
        exact hM p hp
    | some m =>
        rw [removeFromContainer_byModel_some c v m hvm] at hp
        simp only [removeValid, hvm, decide_eq_true_eq] at hVal
        rcases mem_jsDel _ _ p hp with ⟨h1, h2⟩
        have hne : p.2 ≠ v.cid := fun hh => h2 (hVal p h1 hh)
        rw [if_neg hne]
        exact hM p h1
  · intro p hp
    rw [removeFromContainer_byCustom] at hp
    rw [removeFromContainer_views, jsGet_del]
    have h1 : p ∈ c._indexByCustom := mem_eraseFirstVal _ _ p hp
    have h2 : p.2 ≠ v.cid := val_ne_of_mem_eraseFirstVal v.cid c._indexByCustom hV p hp
    rw [if_neg h2]
    exact hC p h1
  · rw [removeFromContainer_byCustom]
    exact noDupKeys_eraseFirstVal v.cid c._indexByCustom hK
  · rw [removeFromContainer_byCustom]
    exact noDupVals_eraseFirstVal v.cid c._indexByCustom hV

theorem regInv_runOp (c : ViewController) (op : Op)
    (hInv : regInv c = true) (hVal : validOp c op = true) :
    regInv (runOp c op) = true := by
  cases op with
  | store v k => exact regInv_storeView c v k hInv hVal
  | create v k =>
      cases k with
      | none => exact regInv_storeView c v none hInv rfl
      | some s =>
          by_cases hs : s.isEmpty
          · simpa [runOp, createView, hs] using regInv_storeView c v none hInv rfl
          · simpa [runOp, createView, hs] using
              regInv_storeView c v (some s) hInv hVal
  | removeC v => exact regInv_removeFromContainer c v hInv hVal
  | removeV a =>
      cases a with
      | null => simpa [runOp, removeView] using hInv
      | undefined => simpa [runOp, removeView] using hInv
      | val v =>
          simpa [runOp, removeView] using
            regInv_removeFromContainer c v hInv hVal

theorem regInv_run : ∀ (ops : List Op) (c : ViewController),
    regInv c = true → validRun c ops = true → regInv (run c ops) = true := by
  intro ops
  induction ops with
  | nil => intro c h _; simpa [run] using h
  | cons op rest ih =>
      intro c hInv hV
      simp only [validRun, Bool.and_eq_true] at hV
      simpa [run] using ih (runOp c op) (regInv_runOp c op hInv hV.1) hV.2

theorem views_storeAll : ∀ (l : List (View × Option String)) (c : ViewController),
    distinctCids l = true → (∀ p ∈ l, jsGet c._views p.1.cid = none) →
    (storeAll c l)._views.length = c._views.length + l.length := by
  intro l
  induction l with
  | nil => intro c _ _; simp [storeAll]
  | cons p rest ih =>
      intro c hd hf
      simp only [distinctCids, Bool.and_eq_true, decide_eq_true_eq] at hd
      obtain ⟨hd1, hd2⟩ := hd
      have hfp : jsGet c._views p.1.cid = none := hf p (List.mem_cons_self _ _)
      have hrest : ∀ q ∈ rest, jsGet (storeView c p.1 p.2)._views q.1.cid = none := by
        intro q hq
        rw [storeView_views, jsGet_set, if_neg (hd1 q hq)]
        exact hf q (List.mem_cons_of_mem _ hq)
      have hmain := ih (storeView c p.1 p.2) hd2 hrest
      rw [storeAll, hmain, storeView_views,
        length_jsSet_of_get_none c._views p.1.cid p.1 hfp]
      simp [Nat.add_assoc, Nat.add_comm 1 rest.length]

theorem length_storeAll : ∀ (l : List (View × Option String)) (c : ViewController),
    l ≠ [] → (storeAll c l).length = some ((storeAll c l)._views.length) := by
  intro l
  induction l with
  | nil => intro c h; exact absurd rfl h
  | cons p rest ih =>
      intro c _
      cases rest with
      | nil => rfl
      | cons q rest2 =>
          rw [storeAll]
          exact ih (storeView c p.1 p.2) (List.cons_ne_nil _ _)

end RegistryLemmas

/-- C1 counterexample: on the collection-backed view collView, attach
performs no action at all - in particular the render hook of the view is
NOT invoked (the event trace is empty), contradicting the claim that the
render hook is invoked in all cases. -/
theorem c1_counterexample : ¬ renderInvoked (attach collView) := by
  simp [attach, collView, mkView, renderInvoked]

/-- C1 (amended): attach on a collection-backed view does nothing (no
template substitution and no render invocation - collection rendering is
left to the view itself); on a non-collection view it reads the bound
model, so it throws when no model is bound; with a bound model it
replaces the root element contents with the rendered template output
(when a template is declared) and then invokes the render hook, the
setHtml event preceding the renderCall event. -/
theorem c1_amended_attach (v : View) :
    (v.hasCollection = true → attach v = Except.ok (v, [])) ∧
    (v.hasCollection = false → v.model = none →
      attach v = Except.error "TypeError: cannot read attributes of undefined") ∧
    (∀ m tmpl, v.hasCollection = false → v.model = some m →
      v.template = some tmpl →
      attach v = Except.ok (render { v with elContents := tmpl (snapshotOf m) },
        [AttachEvent.setHtml (tmpl (snapshotOf m)), AttachEvent.renderCall])) ∧
    (∀ m, v.hasCollection = false → v.model = some m → v.template = none →
      attach v = Except.ok (render v, [AttachEvent.renderCall])) := by
  refine ⟨?_, ?_, ?_, ?_⟩
  · intro h; simp [attach, h]
  · intro h hm; simp [attach, h, hm]
  · intro m tmpl h hm ht; simp [attach, h, hm, ht]
  · intro m h hm ht; simp [attach, h, hm, ht]

/-- C1 witness: the templated model-backed view vTpl gets its root
contents replaced by the template output and then rendered. -/
theorem c1_amended_attach_witness :
    attach vTpl = Except.ok
      (render { vTpl with elContents := tFn (snapshotOf mAlpha) },
        [AttachEvent.setHtml (tFn (snapshotOf mAlpha)), AttachEvent.renderCall]) :=
  (c1_amended_attach vTpl).2.2.1 mAlpha tFn rfl rfl rfl

/-- C2 counterexample: removeView guards only view !== null, so the
otherwise-missing (undefined) argument passes the guard and
removeFromContainer throws reading view.cid - the claim that any absent
argument is a safe no-op fails. -/
theorem c2_counterexample :
    removeView emptyController JsArg.undefined =
      Except.error "TypeError: cannot read cid of undefined" := rfl

/-- C2 (amended): removeView on a null argument is a no-op that does not
throw and leaves the registry unchanged (an undefined argument instead
throws); on a present view it calls removeFromContainer and then the
overridden remove, which clears the view root element and unbinds its
delegated events. -/
theorem c2_amended_removeView (c : ViewController) :
    removeView c JsArg.null = Except.ok (c, none) ∧
    (∀ v : View,
      removeView c (JsArg.val v) =
        Except.ok (removeFromContainer c v, some (View.remove v none)) ∧
      (View.remove v none).eventsDelegated = false ∧
      (View.remove v none).elContents = "") :=
  ⟨rfl, fun _ => ⟨rfl, rfl, rfl⟩⟩

/-- C3: after storeView(v, k) the custom index does map k to the view
cid and the view is stored, but the lookup _getByCustom throws a
TypeError instead of returning the view: its body calls this.getByCid,
and the only defined member is _getByCid. -/
theorem c3_custom_lookup_bug :
    jsGet (storeView emptyController vPlain (some "k"))._indexByCustom "k" =
      some vPlain.cid ∧
    jsGet (storeView emptyController vPlain (some "k"))._views vPlain.cid =
      some vPlain ∧
    _getByCustom (storeView emptyController vPlain (some "k")) "k" =
      Except.error "TypeError: this.getByCid is not a function" :=
  ⟨rfl, rfl, rfl⟩

/-- C4 counterexample: attachSingleView on an unknown handle is not a
no-op - the lookup yields absent and attach then dereferences the absent
view, so the call faults. -/
theorem c4_counterexample :
    attachSingleView emptyController 0 =
      Except.error "TypeError: view is undefined" := rfl

/-- C4 (amended): for every handle not registered in the registry, the
lookup yields absent and attachSingleView then faults with a TypeError
when attach reads view.collection of the absent view; there is no
explicit guard. -/
theorem c4_amended_attachSingleView (c : ViewController) (index : Nat)
    (h : jsGet c._views index = none) :
    attachSingleView c index = Except.error "TypeError: view is undefined" := by
  simp [attachSingleView, attachArg, h]

/-- C4 witness: the empty registry holds no view under handle 5. -/
theorem c4_amended_attachSingleView_witness :
    attachSingleView emptyController 5 =
      Except.error "TypeError: view is undefined" :=
  c4_amended_attachSingleView emptyController 5 rfl

/-- C5 counterexample: storing one view under two custom keys and then
removing it leaves the second key targeting an unregistered handle - the
reachable state after badOps violates the claimed invariant. -/
theorem c5_counterexample :
    claim5Inv (run emptyController badOps) = false := by decide

/-- C5 (amended): in every registry state reachable from the fresh
registry by sequences of storeView, createView, removeFromContainer and
removeView whose steps satisfy the side conditions of validRun (no view
custom-indexed under two different keys, and the model identity
associated with a view handle consistent at removal - both automatic
when handles are unique per view and bindings are not mutated), every
view handle present in the model index or the custom index is also
present in _views. -/
theorem c5_amended_invariant (ops : List Op)
    (h : validRun emptyController ops = true) :
    claim5Inv (run emptyController ops) = true := by
  have h0 : regInv emptyController = true := by decide
  have h1 := regInv_run ops emptyController h0 h
  simp only [regInv, Bool.and_eq_true] at h1
  exact h1.1.1

/-- C5 witness: a run of two keyed stores and a removal satisfies the
side conditions and lands in an invariant-respecting state. -/
theorem c5_amended_invariant_witness :
    claim5Inv (run emptyController demoOps) = true :=
  c5_amended_invariant demoOps (by decide)

/-- C6: after two views are stored against the same model identity, the
model index is overwritten to target the second view cid and the first
view is still stored under its own handle, but the by-model lookup
_getByModelCid throws a TypeError instead of returning the second view:
its body calls this.getByCid, and the only defined member is _getByCid. -/
theorem c6_model_lookup_bug :
    jsGet c6state._indexByModel mAlpha.cid = some v2M.cid ∧
    _getByModelCid c6state mAlpha.cid =
      Except.error "TypeError: this.getByCid is not a function" ∧
    _getByCid c6state (some v1M.cid) = some v1M :=
  ⟨rfl, rfl, rfl⟩

/-- C7: after each mutating operation (storeView, removeFromContainer,
createView, and removeView on a present view) the length attribute
equals the number of entries of _views; and a sequence of storeView
calls with pairwise distinct handles from the fresh registry leaves the
count equal to the number of handles stored. -/
theorem c7_count_invariant :
    (∀ (c : ViewController) (v : View) (k : Option String),
      (storeView c v k).length = some ((storeView c v k)._views.length)) ∧
    (∀ (c : ViewController) (v : View),
      (removeFromContainer c v).length =
        some ((removeFromContainer c v)._views.length)) ∧
    (∀ (c : ViewController) (v : View) (k : Option String),
      ((createView c v k).1).length = some (((createView c v k).1)._views.length)) ∧
    (∀ (c cNew : ViewController) (v : View) (r : Option View),
      removeView c (JsArg.val v) = Except.ok (cNew, r) →
      cNew.length = some (cNew._views.length)) ∧
    (∀ l : List (View × Option String), distinctCids l = true → l ≠ [] →
      (storeAll emptyController l).length = some l.length) := by
  refine ⟨fun c v k => rfl, fun c v => rfl, ?_, ?_, ?_⟩
  · intro c v k
    cases k with
    | none => rfl
    | some s =>
        by_cases hs : s.isEmpty
        · simp only [createView, if_pos hs]; rfl
        · simp only [createView, if_neg hs]; rfl
  · intro c cNew v r h
    simp only [removeView, Except.ok.injEq, Prod.mk.injEq] at h
    obtain ⟨h1, _⟩ := h
    rw [← h1]
    rfl
  · intro l hd hne
    have h1 := views_storeAll l emptyController hd (fun p _ => rfl)
    have h2 := length_storeAll l emptyController hne
    rw [h2, h1]
    simp [emptyController]

/-- C7 witness: a keyed store, a removal on a registry holding one view,
and a two-element distinct-handle store sequence all leave the count in
line with the stored entries. -/
theorem c7_count_invariant_witness :
    (storeView emptyController vPlain (some "k")).length =
      some ((storeView emptyController vPlain (some "k"))._views.length) ∧
    (removeFromContainer cColl v2M).length =
      some ((removeFromContainer cColl v2M)._views.length) ∧
    (storeAll emptyController [(v1M, none), (v2M, none)]).length = some 2 :=
  ⟨c7_count_invariant.1 emptyController vPlain (some "k"),
   c7_count_invariant.2.2.2.1 cColl (removeFromContainer cColl v2M) v2M
     (some (View.remove v2M none)) rfl,
   c7_count_invariant.2.2.2.2 [(v1M, none), (v2M, none)] (by decide)
     (List.cons_ne_nil _ _)⟩

/-- C8: apply invokes the named member on every registered view exposing
it, passing the argument list spread (the call record holds exactly the
elements of args, not a single array), and leaves every registered view
lacking that member unchanged, reporting nothing. -/
theorem c8_apply (c : ViewController) (method : String) (args : Option (List Nat))
    (k : Nat) (v : View) (h : jsGet c._views k = some v) :
    (v.methods.contains method = true →
      jsGet (ViewController.apply c method args)._views k =
        some { v with calls := v.calls ++ [(method, args.getD [])] }) ∧
    (v.methods.contains method = false →
      jsGet (ViewController.apply c method args)._views k = some v) := by
  have hmap := jsGet_map_snd c._views (applyOne method (args.getD [])) k
  constructor
  · intro hm
    have hm2 : method ∈ v.methods := by simpa using hm
    rw [apply_views, hmap, h]
    simp [applyOne, hm2]
  · intro hm
    have hm2 : method ∉ v.methods := by simpa using hm
    rw [apply_views, hmap, h]
    simp [applyOne, hm2]

/-- C8 witness: apply("customMethod", [1,2]) records the invocation with
arguments 1 and 2 on the view exposing the member and leaves the other
view untouched. -/
theorem c8_apply_witness :
    jsGet (ViewController.apply cApply "customMethod" (some [1, 2]))._views 1 =
      some { vCap with calls := vCap.calls ++ [("customMethod", [1, 2])] } ∧
    jsGet (ViewController.apply cApply "customMethod" (some [1, 2]))._views 2 =
      some vNoCap :=
  ⟨(c8_apply cApply "customMethod" (some [1, 2]) 1 vCap rfl).1 (by decide),
   (c8_apply cApply "customMethod" (some [1, 2]) 2 vNoCap rfl).2 (by decide)⟩

/-- C9 counterexample: removeFromContainer on the never-registered view
vIntrude, whose bound model shares its identity with the registered view
of cColl, deletes the live model index entry - the maps do not stay
unchanged. -/
theorem c9_counterexample :
    (removeFromContainer cColl vIntrude)._indexByModel ≠
      cColl._indexByModel := by decide

/-- C9 (amended): removeFromContainer never raises (every deletion is
total); on a view that was never registered and whose model identity and
handle are absent from the indexes, all three maps are unchanged and
only the length attribute is recomputed. Without that proviso the
unconditional deletions can remove live index entries that merely
coincide with the argument. -/
theorem c9_amended_removeFromContainer (c : ViewController) (v : View)
    (hv : jsGet c._views v.cid = none)
    (hm : ∀ m, v.model = some m → jsGet c._indexByModel m.cid = none)
    (hc : ∀ p ∈ c._indexByCustom, p.2 ≠ v.cid) :
    removeFromContainer c v = { c with length := some c._views.length } := by
  have h1 : (removeFromContainer c v)._indexByModel = c._indexByModel := by
    cases hvm : v.model with
    | none => exact removeFromContainer_byModel_none c v hvm
    | some m =>
        rw [removeFromContainer_byModel_some c v m hvm]
        exact jsDel_of_get_none _ _ (hm m hvm)
  have h2 : (removeFromContainer c v)._indexByCustom = c._indexByCustom := by
    rw [removeFromContainer_byCustom]
    exact eraseFirstVal_of_forall_ne _ _ hc
  have h3 : (removeFromContainer c v)._views = c._views := by
    rw [removeFromContainer_views]
    exact jsDel_of_get_none _ _ hv
  have h4 : (removeFromContainer c v).length = some c._views.length := by
    show some (jsDel c._views v.cid).length = some c._views.length
    rw [jsDel_of_get_none _ _ hv]
  exact viewControllerExt _ _ h3 h1 h2 h4

/-- C9 witness: removing the never-registered vStray, whose model
identity 8 and handle 9 occur nowhere in the indexes of cColl, leaves
all maps of cColl unchanged. -/
theorem c9_amended_removeFromContainer_witness :
    removeFromContainer cColl vStray =
      { cColl with length := some cColl._views.length } :=
  c9_amended_removeFromContainer cColl vStray rfl
    (by intro m h; cases h; rfl)
    (by
      intro p hp
      have h0 : cColl._indexByCustom = [] := rfl
      rw [h0] at hp
      exact absurd hp (List.not_mem_nil p))

/-- C10: removeFromContainer deletes the model index entry of the bound
model unconditionally: after v1 and then v2 (same model identity,
distinct handles) are stored, removing v1 deletes the entry that was
targeting v2, so v2 is unreachable by model identity while still
registered under its own handle. -/
theorem c10_model_index_clobber (c : ViewController) (v1 v2 : View)
    (m1 m2 : Model) (k1 k2 : Option String)
    (h1 : v1.model = some m1) (h2 : v2.model = some m2)
    (hm : m1.cid = m2.cid) (hne : v2.cid ≠ v1.cid) :
    jsGet (removeFromContainer (storeView (storeView c v1 k1) v2 k2)
        v1)._indexByModel m2.cid = none ∧
    jsGet (removeFromContainer (storeView (storeView c v1 k1) v2 k2)
        v1)._views v2.cid = some v2 := by
  constructor
  · rw [removeFromContainer_byModel_some _ v1 m1 h1, jsGet_del, if_pos hm.symm]
  · rw [removeFromContainer_views, jsGet_del, if_neg hne, storeView_views,
      jsGet_set, if_pos rfl]

/-- C10 witness: with v1M and v2M both bound to model identity 7,
removing v1M after both stores erases the model mapping of v2M while v2M
stays registered. -/
theorem c10_model_index_clobber_witness :
    jsGet (removeFromContainer (storeView (storeView emptyController v1M none)
        v2M none) v1M)._indexByModel mAlpha.cid = none ∧
    jsGet (removeFromContainer (storeView (storeView emptyController v1M none)
        v2M none) v1M)._views v2M.cid = some v2M :=
  c10_model_index_clobber emptyController v1M v2M mAlpha mAlpha none none
    rfl rfl rfl (by decide)

end Plumber
